import Mathlib

/-!
Shallow embedding of the fitcheck repository's scraping and fit-scoring
subsystem (src/lib/scraper-service.ts and src/lib/gemini-service.ts).

Strings are modelled as Lean `String`/`List Char`; JavaScript numbers are
modelled as exact rationals (`ℚ`), so IEEE-754 specifics (NaN, ±Infinity,
rounding) are abstracted: a NaN result of `parseFloat` is modelled as
`none`.  The regular expressions of the source are hand-compiled into
deterministic scanners that follow the JavaScript engine's leftmost-match,
greedy/lazy and backtracking behaviour on the concrete patterns involved.
-/

set_option maxRecDepth 100000

/-- JavaScript `\s` character class (ASCII part plus the common Unicode
space code points recognised by JS regular expressions and `trim`). -/
def isJsWs (c : Char) : Bool :=
  c = ' ' || c = '\t' || c = '\n' || c = '\x0b' || c = '\x0c' || c = '\r' ||
  c = ' ' || c = ' ' ||
  (0x2000 ≤ c.toNat && c.toNat ≤ 0x200a) ||
  c = ' ' || c = ' ' || c = ' ' || c = ' ' ||
  c = '　' || c = '﻿'

/-- JavaScript `\w` character class. -/
def isWordChar (c : Char) : Bool :=
  ('a' ≤ c && c ≤ 'z') || ('A' ≤ c && c ≤ 'Z') || ('0' ≤ c && c ≤ '9') || c = '_'

/-- ASCII digit test, the JS `\d` / `[0-9]` class. -/
def isDigitCh (c : Char) : Bool := '0' ≤ c && c ≤ '9'

/-- Quote class `["']` used throughout the source's regexes. -/
def isQuote (c : Char) : Bool := c = '"' || c = '\''

/-- Case-insensitive character comparison, as used by the `i` regex flag on
the ASCII literals appearing in the source. -/
def ciEq (a b : Char) : Bool := a.toLower = b.toLower

/-- Match a literal case-insensitively at the head of the input, returning
the rest of the input. -/
def ciLit : List Char → List Char → Option (List Char)
  | [], s => some s
  | _, [] => none
  | p :: ps, c :: cs => if ciEq c p then ciLit ps cs else none

/-- Match a literal case-sensitively at the head of the input. -/
def csLit : List Char → List Char → Option (List Char)
  | [], s => some s
  | _, [] => none
  | p :: ps, c :: cs => if c = p then csLit ps cs else none

/-- Substring test (case-sensitive), the JS `String.prototype.includes`. -/
def containsSub (sub : List Char) : List Char → Bool
  | [] => (csLit sub []).isSome
  | c :: cs => (csLit sub (c :: cs)).isSome || containsSub sub cs

/-- Substring test with case-insensitive comparison, the JS
`/lit/i.test(s)` for a literal alternative. -/
def containsSubCI (sub : List Char) : List Char → Bool
  | [] => (ciLit sub []).isSome
  | c :: cs => (ciLit sub (c :: cs)).isSome || containsSubCI sub cs

/-- JS object property write: overwrite the value when the key exists,
otherwise append the new binding (insertion order is preserved). -/
def setKey {α : Type} : List (String × α) → String → α → List (String × α)
  | [], k, v => [(k, v)]
  | (k', v') :: rest, k, v =>
    if k' = k then (k, v) :: rest else (k', v') :: setKey rest k v

/-- JS object property read on an association list with unique keys. -/
def lookupJS {α : Type} : List (String × α) → String → Option α
  | [], _ => none
  | (k', v') :: rest, k => if k' = k then some v' else lookupJS rest k

/-- Value of the last pair in the list carrying the given key, if any. -/
def lastVal {α : Type} : List (String × α) → String → Option α
  | [], _ => none
  | p :: rest, k =>
    match lastVal rest k with
    | some v => some v
    | none => if p.1 = k then some p.2 else none

/-- One step of global regex scanning: `tryM prev s` attempts a match at
the head of `s` (with `prev` the character just before the current
position, needed for `\b` assertions) and returns the extracted capture
together with the number of characters the whole match consumed.  The
scanner mirrors `RegExp.prototype.exec` with the `g` flag: it advances to
the end of each match, and by one character after a failed attempt.  The
fuel argument is an upper bound on the number of steps; it is always
instantiated with more fuel than the input length, and every accepted
match consumes at least one character. -/
def scanAux {α : Type} (tryM : Option Char → List Char → Option (α × Nat)) :
    Nat → Option Char → List Char → List α
  | 0, _, _ => []
  | Nat.succ fuel, prev, s =>
    match s with
    | [] => []
    | c :: cs =>
      match tryM prev s with
      | some (a, k) =>
        a :: scanAux tryM fuel ((s.take (max k 1)).getLast?) (s.drop (max k 1))
      | none => scanAux tryM fuel (some c) cs

/-- Run a global regex scan over a whole string. -/
def scanAll {α : Type} (tryM : Option Char → List Char → Option (α × Nat))
    (s : List Char) : List α :=
  scanAux tryM (s.length + 1) none s

/-- First match of a non-global regex (`String.prototype.match` without the
`g` flag): the leftmost match's capture. -/
def firstCap {α : Type} (tryM : Option Char → List Char → Option (α × Nat))
    (s : List Char) : Option α :=
  (scanAll tryM s).head?

/- ### Fit scorer (src/lib/gemini-service.ts, checkFitCompatibility) -/

/-- Warning emitted by `checkFitCompatibility`.  The source pushes the
formatted strings `` `${key} may be tight (${pct}% smaller)` `` and
`` `${key} may be loose (${pct}% larger)` ``; the warning is modelled
structurally as its kind, its measurement key and the rendered (rounded)
percentage. -/
inductive FitWarning where
  | tight (key : String) (pct : ℤ)
  | loose (key : String) (pct : ℤ)
deriving DecidableEq, Repr

/-- JS `Number.prototype.toFixed(0)`: round to the nearest integer, ties
going to the larger integer. -/
def jsToFixed0 (q : ℚ) : ℤ := ⌊q + 1 / 2⌋

/-- Accumulator of the measurement-comparison loop. -/
structure FitAcc where
  ws : List FitWarning
  recs : List String
  total : ℚ
  count : ℕ
deriving DecidableEq, Repr

/-- Contribution of a single user measurement entry to the loop state of
`checkFitCompatibility`: the item measurement is looked up and skipped
when absent or zero (the source's JS truthiness test `if (itemValue)`). -/
def fitEntryData (item : List (String × ℚ)) (key : String) (uv : ℚ) : FitAcc :=
  match lookupJS item key with
  | none => ⟨[], [], 0, 0⟩
  | some iv =>
    if iv = 0 then ⟨[], [], 0, 0⟩
    else
      let diff : ℚ := (iv - uv) / uv * 100
      if diff < -5 then
        ⟨[FitWarning.tight key (jsToFixed0 |diff|)],
         ["Consider sizing up for better " ++ key ++ " fit"], |diff|, 1⟩
      else if diff > 10 then
        ⟨[FitWarning.loose key (jsToFixed0 diff)],
         ["Consider sizing down or tailoring the " ++ key], |diff|, 1⟩
      else ⟨[], [], |diff|, 1⟩

/-- The measurement-comparison loop of `checkFitCompatibility`, iterating
the user's entries in order. -/
def fitLoop (item : List (String × ℚ)) : List (String × ℚ) → FitAcc
  | [] => ⟨[], [], 0, 0⟩
  | (k, uv) :: rest =>
    let e := fitEntryData item k uv
    let r := fitLoop item rest
    ⟨e.ws ++ r.ws, e.recs ++ r.recs, e.total + r.total, e.count + r.count⟩

/-- Result record of `checkFitCompatibility`. -/
structure FitResult where
  fits : Bool
  score : ℚ
  warnings : List FitWarning
  recommendations : List String
deriving DecidableEq, Repr

/-- checkFitCompatibility (src/lib/gemini-service.ts): compare the user's
measurements against the item's, average the absolute percentage
differences (defaulting to 100 when no key was comparable), and derive
the score and the fits flag. -/
def checkFitCompatibility (user item : List (String × ℚ)) : FitResult :=
  let a := fitLoop item user
  let avgDiff : ℚ := if a.count > 0 then a.total / (a.count : ℚ) else 100
  let score : ℚ := max 0 (100 - avgDiff)
  { fits := decide (score > 70) && a.ws.isEmpty
    score := score
    warnings := a.ws
    recommendations := a.recs }

/- ### Helper lemmas about the fit loop -/

theorem fitLoop_ws_flatMap (item : List (String × ℚ)) :
    ∀ user : List (String × ℚ),
      (fitLoop item user).ws =
        user.flatMap (fun kv => (fitEntryData item kv.1 kv.2).ws) := by
  intro user
  induction user with
  | nil => rfl
  | cons kv rest ih =>
    cases kv with
    | mk k uv => simp [fitLoop, List.flatMap_cons, ih]

theorem fitEntryData_key (item : List (String × ℚ)) (k : String) (uv : ℚ)
    (w : FitWarning) (hw : w ∈ (fitEntryData item k uv).ws) :
    (∃ n, w = FitWarning.tight k n) ∨ (∃ n, w = FitWarning.loose k n) := by
  unfold fitEntryData at hw
  rcases hlook : lookupJS item k with _ | iv
  · rw [hlook] at hw; simp at hw
  · rw [hlook] at hw
    by_cases hz : iv = 0
    · simp [hz] at hw
    · simp only [hz, if_false] at hw
      by_cases h1 : (iv - uv) / uv * 100 < -5
      · simp [h1] at hw; exact Or.inl ⟨_, hw⟩
      · simp only [h1, if_false] at hw
        by_cases h2 : (iv - uv) / uv * 100 > 10
        · simp [h2] at hw; exact Or.inr ⟨_, hw⟩
        · simp [h2] at hw

theorem nodup_keys_eq {α : Type} :
    ∀ (l : List (String × α)) (k : String) (a b : α),
      (l.map Prod.fst).Nodup → (k, a) ∈ l → (k, b) ∈ l → a = b := by
  intro l
  induction l with
  | nil => intro k a b _ ha; cases ha
  | cons p rest ih =>
    intro k a b hnd ha hb
    rw [List.map_cons, List.nodup_cons] at hnd
    rcases hnd with ⟨hp, hrest⟩
    rcases List.mem_cons.mp ha with ha1 | ha2 <;>
      rcases List.mem_cons.mp hb with hb1 | hb2
    · exact congrArg Prod.snd (ha1.trans hb1.symm)
    · rw [← ha1] at hp
      exact absurd (List.mem_map.mpr ⟨(k, b), hb2, rfl⟩) hp
    · rw [← hb1] at hp
      exact absurd (List.mem_map.mpr ⟨(k, a), ha2, rfl⟩) hp
    · exact ih k a b hrest ha2 hb2

theorem fitLoop_all_none (item : List (String × ℚ)) :
    ∀ user : List (String × ℚ),
      (∀ kv ∈ user, lookupJS item kv.1 = none) →
      fitLoop item user = ⟨[], [], 0, 0⟩ := by
  intro user
  induction user with
  | nil => intro _; rfl
  | cons kv rest ih =>
    intro h
    cases kv with
    | mk k uv =>
      have hk := h (k, uv) (List.mem_cons_self _ _)
      have hrest := ih (fun kv hkv => h kv (List.mem_cons_of_mem _ hkv))
      simp [fitLoop, hrest, fitEntryData, hk]

theorem tight_iff (uv iv : ℚ) (hu : 0 < uv) :
    (iv - uv) / uv * 100 < -5 ↔ iv < uv * (95 / 100) := by
  rw [div_mul_eq_mul_div, div_lt_iff hu]
  constructor <;> intro h <;> nlinarith

theorem loose_iff (uv iv : ℚ) (hu : 0 < uv) :
    10 < (iv - uv) / uv * 100 ↔ uv * (110 / 100) < iv := by
  rw [div_mul_eq_mul_div, lt_div_iff hu]
  constructor <;> intro h <;> nlinarith

theorem checkFit_warnings (user item : List (String × ℚ)) :
    (checkFitCompatibility user item).warnings =
      user.flatMap (fun kv => (fitEntryData item kv.1 kv.2).ws) := by
  simp only [checkFitCompatibility]
  exact fitLoop_ws_flatMap item user

/-- C1 (amended): for every pair of flat numeric measurement mappings and
every key present in both whose user value is strictly positive and whose
item value is nonzero (the source's truthiness test skips a zero item
value), a "tight" warning for that key is emitted exactly when
`itemValue < userValue * 0.95`, a "loose" warning exactly when
`itemValue > userValue * 1.10`, and no warning for that key otherwise. -/
theorem C1_fit_warning_thresholds (user item : List (String × ℚ)) (key : String)
    (uv iv : ℚ) (hnd : (user.map Prod.fst).Nodup) (hmem : (key, uv) ∈ user)
    (hlook : lookupJS item key = some iv) (hu : 0 < uv) (hz : iv ≠ 0) :
    (iv < uv * (95 / 100) →
       ∃ n, FitWarning.tight key n ∈ (checkFitCompatibility user item).warnings) ∧
    (uv * (110 / 100) < iv →
       ∃ n, FitWarning.loose key n ∈ (checkFitCompatibility user item).warnings) ∧
    (uv * (95 / 100) ≤ iv → iv ≤ uv * (110 / 100) →
       ∀ n, FitWarning.tight key n ∉ (checkFitCompatibility user item).warnings ∧
            FitWarning.loose key n ∉ (checkFitCompatibility user item).warnings) := by
  rw [checkFit_warnings]
  refine ⟨?_, ?_, ?_⟩
  · intro h
    have hd : (iv - uv) / uv * 100 < -5 := (tight_iff uv iv hu).mpr h
    refine ⟨jsToFixed0 |(iv - uv) / uv * 100|, ?_⟩
    apply List.mem_flatMap.mpr
    refine ⟨(key, uv), hmem, ?_⟩
    simp [fitEntryData, hlook, hz, hd]
  · intro h
    have hd : 10 < (iv - uv) / uv * 100 := (loose_iff uv iv hu).mpr h
    have hd' : ¬ ((iv - uv) / uv * 100 < -5) := by linarith
    refine ⟨jsToFixed0 ((iv - uv) / uv * 100), ?_⟩
    apply List.mem_flatMap.mpr
    refine ⟨(key, uv), hmem, ?_⟩
    simp [fitEntryData, hlook, hz, hd, hd']
  · intro h1 h2 n
    have hd1 : ¬ ((iv - uv) / uv * 100 < -5) := by
      rw [tight_iff uv iv hu]; exact not_lt.mpr h1
    have hd2 : ¬ (10 < (iv - uv) / uv * 100) := by
      rw [loose_iff uv iv hu]; exact not_lt.mpr h2
    have hempty : (fitEntryData item key uv).ws = [] := by
      simp [fitEntryData, hlook, hz, hd1, hd2]
    constructor
    · intro hmem'
      obtain ⟨⟨k1, v1⟩, hkv, hw⟩ := List.mem_flatMap.mp hmem'
      have hk1 : k1 = key := by
        rcases fitEntryData_key item k1 v1 _ hw with ⟨m, hm⟩ | ⟨m, hm⟩
        · injection hm with h1 h2; exact h1.symm
        · cases hm
      subst hk1
      have hv1 : v1 = uv := nodup_keys_eq user k1 v1 uv hnd hkv hmem
      subst hv1
      rw [hempty] at hw
      cases hw
    · intro hmem'
      obtain ⟨⟨k1, v1⟩, hkv, hw⟩ := List.mem_flatMap.mp hmem'
      have hk1 : k1 = key := by
        rcases fitEntryData_key item k1 v1 _ hw with ⟨m, hm⟩ | ⟨m, hm⟩
        · cases hm
        · injection hm with h1 h2; exact h1.symm
      subst hk1
      have hv1 : v1 = uv := nodup_keys_eq user k1 v1 uv hnd hkv hmem
      subst hv1
      rw [hempty] at hw
      cases hw

/-- C1 counterexample: the claim as stated fails when the item value is
zero.  For user mapping `chest ↦ 100` and item mapping `chest ↦ 0`, the
key is present in both, the user value is positive and the item value is
below `userValue * 0.95`, yet the source's truthiness test
`if (itemValue)` skips the key and no warning at all is emitted. -/
theorem C1_counterexample :
    lookupJS [("chest", (0 : ℚ))] "chest" = some 0 ∧
    (0 : ℚ) < 100 ∧ (0 : ℚ) < 100 * (95 / 100) ∧
    (checkFitCompatibility [("chest", 100)] [("chest", 0)]).warnings = [] := by
  refine ⟨by decide, by norm_num, by norm_num, by decide⟩

/-- C1 witness: for user `chest ↦ 100`, item `chest ↦ 90`, the item value
is below `100 * 0.95`, and a tight warning for "chest" is emitted. -/
theorem C1_witness :
    ∃ n, FitWarning.tight "chest" n ∈
      (checkFitCompatibility [("chest", 100)] [("chest", 90)]).warnings :=
  (C1_fit_warning_thresholds [("chest", 100)] [("chest", 90)] "chest" 100 90
    (by decide) (by decide) (by decide) (by norm_num) (by norm_num)).1
    (by norm_num)

/-- C2: for every pair of input measurement mappings, the result of
checkFitCompatibility has fits = true exactly when score > 70 and the
warnings list is empty; in particular fits is never true when any warning
was emitted. -/
theorem C2_fits_iff (user item : List (String × ℚ)) :
    ((checkFitCompatibility user item).fits = true ↔
       (checkFitCompatibility user item).score > 70 ∧
       (checkFitCompatibility user item).warnings = []) ∧
    ((checkFitCompatibility user item).warnings ≠ [] →
       (checkFitCompatibility user item).fits = false) := by
  constructor
  · simp [checkFitCompatibility, List.isEmpty_iff]
  · intro hne
    simp only [checkFitCompatibility] at hne ⊢
    rw [Bool.and_eq_false_iff]
    right
    rw [Bool.eq_false_iff]
    intro hempty
    exact hne (List.isEmpty_iff.mp hempty)

/-- C2 witness: with user `chest ↦ 100` and item `chest ↦ 90` a tight
warning is emitted, and fits is false even though the score is 90. -/
theorem C2_witness :
    (checkFitCompatibility [("chest", 100)] [("chest", 90)]).fits = false :=
  (C2_fits_iff [("chest", 100)] [("chest", 90)]).2 (by
    have hws : (checkFitCompatibility [("chest", 100)] [("chest", 90)]).warnings =
        [FitWarning.tight "chest" (jsToFixed0 10)] := by
      norm_num [checkFitCompatibility, fitLoop, fitEntryData, lookupJS]
    rw [hws]
    simp)

/-- C9: when no key of the user mapping is present in the item mapping (in
particular when both are empty), the measurement count stays zero, the
average absolute difference defaults to 100, and checkFitCompatibility
returns score 0 and fits false. -/
theorem C9_disjoint_keys (user item : List (String × ℚ))
    (h : ∀ kv ∈ user, lookupJS item kv.1 = none) :
    (checkFitCompatibility user item).score = 0 ∧
    (checkFitCompatibility user item).fits = false := by
  have hloop := fitLoop_all_none item user h
  constructor
  · simp [checkFitCompatibility, hloop]
  · simp [checkFitCompatibility, hloop]

/-- C9 witness: `checkFitCompatibility {} {}` returns score 0, fits false. -/
theorem C9_witness :
    (checkFitCompatibility [] []).score = 0 ∧
    (checkFitCompatibility [] []).fits = false :=
  C9_disjoint_keys [] [] (by intro kv hkv; cases hkv)

/- ### Meta-tag extractor (src/lib/scraper-service.ts, extractMetaTags) -/

/-- Match the regex fragment `\s+` at the head of the input. -/
def wsRun (s : List Char) : Option (List Char) :=
  if (s.takeWhile isJsWs).isEmpty then none else some (s.dropWhile isJsWs)

/-- Match the regex fragment `["']` at the head of the input. -/
def quoteOpen : List Char → Option (List Char)
  | [] => none
  | q :: r => if isQuote q then some r else none

/-- Match the regex fragment `([^"']+)["']` at the head of the input,
returning the capture and the rest after the closing quote. -/
def capToQuote (s : List Char) : Option (List Char × List Char) :=
  let cap := s.takeWhile (fun c => !isQuote c)
  let r := s.dropWhile (fun c => !isQuote c)
  if cap.isEmpty then none
  else
    match r with
    | [] => none
    | _ :: r' => some (cap, r')

/-- Matcher for the three meta-tag regexes of the source, which share the
shape `<meta\s+ATTR=["']PRE([^"']+)["']\s+content=["']([^"']+)["']` with
the `gi` flags; `attrEq` is `property=` or `name=` and `pre` is the fixed
prefix demanded inside the first quoted value (`og:`, `twitter:`, or
empty). -/
def tryMetaAttr (attrEq pre : List Char) (_prev : Option Char)
    (s : List Char) : Option ((List Char × List Char) × Nat) :=
  (ciLit ("<meta".toList) s).bind fun r1 =>
  (wsRun r1).bind fun r2 =>
  (ciLit attrEq r2).bind fun r3 =>
  (quoteOpen r3).bind fun r4 =>
  (ciLit pre r4).bind fun r5 =>
  (capToQuote r5).bind fun p1 =>
  (wsRun p1.2).bind fun r6 =>
  (ciLit ("content=".toList) r6).bind fun r7 =>
  (quoteOpen r7).bind fun r8 =>
  (capToQuote r8).map fun p2 =>
  ((p1.1, p2.1), s.length - p2.2.length)

/-- All matches of the OpenGraph regex
`/<meta\s+property=["']og:([^"']+)["']\s+content=["']([^"']+)["']/gi`. -/
def ogPairs (html : List Char) : List (List Char × List Char) :=
  scanAll (tryMetaAttr ("property=".toList) ("og:".toList)) html

/-- All matches of the Twitter regex
`/<meta\s+name=["']twitter:([^"']+)["']\s+content=["']([^"']+)["']/gi`. -/
def twPairs (html : List Char) : List (List Char × List Char) :=
  scanAll (tryMetaAttr ("name=".toList) ("twitter:".toList)) html

/-- All matches of the generic meta regex
`/<meta\s+name=["']([^"']+)["']\s+content=["']([^"']+)["']/gi`. -/
def namePairs (html : List Char) : List (List Char × List Char) :=
  scanAll (tryMetaAttr ("name=".toList) []) html

/-- The key/value pairs written into the `metaTags` object, in write
order: the OpenGraph pass (keys prefixed `og:`), then the Twitter pass
(keys prefixed `twitter:`), then the generic-name pass (raw keys). -/
def metaKeyed (html : List Char) : List (String × String) :=
  (ogPairs html).map (fun p => ("og:" ++ String.mk p.1, String.mk p.2)) ++
  (twPairs html).map (fun p => ("twitter:" ++ String.mk p.1, String.mk p.2)) ++
  (namePairs html).map (fun p => (String.mk p.1, String.mk p.2))

/-- extractMetaTags (src/lib/scraper-service.ts): run the three regex
passes over the HTML and collect the captures into one object, each write
overwriting any earlier value for the same key. -/
def extractMetaTags (html : String) : List (String × String) :=
  (metaKeyed html.data).foldl (fun m kv => setKey m kv.1 kv.2) []

theorem lookupJS_setKey {α : Type} :
    ∀ (m : List (String × α)) (k k' : String) (v : α),
      lookupJS (setKey m k' v) k = if k' = k then some v else lookupJS m k := by
  intro m
  induction m with
  | nil => intro k k' v; simp [setKey, lookupJS]
  | cons p rest ih =>
    intro k k' v
    cases p with
    | mk a b =>
      by_cases hak : a = k' <;> by_cases hk : k' = k
      · subst hak; subst hk; simp [setKey, lookupJS]
      · subst hak; simp [setKey, lookupJS, hk]
      · subst hk
        simp [setKey, lookupJS, hak, ih]
      · by_cases hk2 : a = k
        · subst hk2; simp [setKey, lookupJS, hak, hk, ih]
        · simp [setKey, lookupJS, hak, hk, hk2, ih]

theorem lookupJS_foldl_setKey {α : Type} :
    ∀ (l : List (String × α)) (m : List (String × α)) (k : String),
      lookupJS (l.foldl (fun acc kv => setKey acc kv.1 kv.2) m) k =
        match lastVal l k with
        | some v => some v
        | none => lookupJS m k := by
  intro l
  induction l with
  | nil => intro m k; rfl
  | cons p rest ih =>
    intro m k
    rw [List.foldl_cons, ih]
    cases hl : lastVal rest k with
    | some v => simp [lastVal, hl]
    | none =>
      simp only [lastVal, hl, lookupJS_setKey]
      by_cases h : p.1 = k <;> simp [h]

theorem lastVal_append {α : Type} :
    ∀ (a b : List (String × α)) (k : String),
      lastVal (a ++ b) k =
        match lastVal b k with
        | some v => some v
        | none => lastVal a k := by
  intro a
  induction a with
  | nil =>
    intro b k
    rw [List.nil_append]
    cases hl : lastVal b k <;> simp [lastVal, hl]
  | cons p rest ih =>
    intro b k
    rw [List.cons_append]
    simp only [lastVal, ih]
    cases hb : lastVal b k <;> cases hr : lastVal rest k <;> simp [hb, hr]

/-- C6 counterexample: the claim that the last meta tag in document order
wins across all three patterns is false.  In HTML where a generic
`<meta name="og:title" content="Y">` tag comes first and a well-formed
`<meta property="og:title" content="X">` tag comes last, the extractor
returns "Y" for key "og:title", because the generic-name pass runs after
the OpenGraph pass and overwrites its value regardless of document
order.  This also refutes the claim's particular instance, since the HTML
contains a well-formed og:title property tag with content "X" yet the
result does not map "og:title" to "X". -/
theorem C6_counterexample :
    ("<meta name='og:title' content='Y'><meta property='og:title' content='X'>" : String) =
      "<meta name='og:title' content='Y'>" ++ "<meta property='og:title' content='X'>" ∧
    lookupJS (extractMetaTags
      "<meta name='og:title' content='Y'><meta property='og:title' content='X'>")
      "og:title" = some "Y" ∧
    lookupJS (extractMetaTags
      "<meta name='og:title' content='Y'><meta property='og:title' content='X'>")
      "og:title" ≠ some "X" := by
  refine ⟨rfl, by decide, by decide⟩

/-- C6 (amended): extractMetaTags maps each key to the value of the last
match for that key in the concatenated write sequence of the three
passes, which run in the fixed order OpenGraph-property, Twitter-name,
generic-name (so a later pass overwrites an earlier one for the same key,
regardless of document order); within each pass the last match in
document order wins.  In particular, for HTML containing a well-formed
`<meta property="og:title" content="X">` tag, the result maps "og:title"
to "X" provided neither the Twitter pass nor the generic-name pass
produces a match for that key and no later OpenGraph match rebinds it. -/
theorem C6_meta_last_write_wins :
    (∀ (html : String) (k : String),
       lookupJS (extractMetaTags html) k = lastVal (metaKeyed html.data) k) ∧
    (∀ (html : String) (v : String),
       lastVal ((namePairs html.data).map
         (fun p => (String.mk p.1, String.mk p.2))) "og:title" = none →
       lastVal ((twPairs html.data).map
         (fun p => ("twitter:" ++ String.mk p.1, String.mk p.2))) "og:title" = none →
       lastVal ((ogPairs html.data).map
         (fun p => ("og:" ++ String.mk p.1, String.mk p.2))) "og:title" = some v →
       lookupJS (extractMetaTags html) "og:title" = some v) := by
  have hmain : ∀ (html : String) (k : String),
      lookupJS (extractMetaTags html) k = lastVal (metaKeyed html.data) k := by
    intro html k
    show lookupJS ((metaKeyed html.data).foldl (fun m kv => setKey m kv.1 kv.2) []) k = _
    rw [lookupJS_foldl_setKey]
    cases hl : lastVal (metaKeyed html.data) k <;> simp [lookupJS]
  refine ⟨hmain, ?_⟩
  intro html v hname htw hog
  rw [hmain html "og:title"]
  show lastVal (_ ++ _ ++ _) "og:title" = some v
  rw [lastVal_append, lastVal_append, hname, htw, hog]

/-- C6 witness: for HTML consisting of a single well-formed og:title
property tag with content "X", the extractor maps "og:title" to "X". -/
theorem C6_witness :
    lookupJS (extractMetaTags "<meta property='og:title' content='X'>")
      "og:title" = some "X" :=
  C6_meta_last_write_wins.2 "<meta property='og:title' content='X'>" "X"
    (by decide) (by decide) (by decide)

/- ### Image-link extractor (src/lib/scraper-service.ts, extractImages) -/

theorem scanAux_post {α : Type} (tryM : Option Char → List Char → Option (α × Nat))
    (P : α → Prop)
    (hM : ∀ prev s a k, tryM prev s = some (a, k) → P a) :
    ∀ (fuel : Nat) (prev : Option Char) (s : List Char),
      ∀ a ∈ scanAux tryM fuel prev s, P a := by
  intro fuel
  induction fuel with
  | zero => intro prev s a ha; cases ha
  | succ n ih =>
    intro prev s a ha
    match s with
    | [] => cases ha
    | c :: cs =>
      simp only [scanAux] at ha
      cases htry : tryM prev (c :: cs) with
      | some p =>
        rw [htry] at ha
        rcases List.mem_cons.mp ha with h1 | h2
        · exact h1 ▸ hM prev (c :: cs) p.1 p.2 (by rw [htry])
        · exact ih _ _ a h2
      | none =>
        rw [htry] at ha
        exact ih _ _ a ha

theorem scanAll_post {α : Type} (tryM : Option Char → List Char → Option (α × Nat))
    (P : α → Prop)
    (hM : ∀ prev s a k, tryM prev s = some (a, k) → P a) :
    ∀ (s : List Char), ∀ a ∈ scanAll tryM s, P a := by
  intro s
  exact scanAux_post tryM P hM (s.length + 1) none s

theorem capToQuote_ne_nil (s : List Char) (p : List Char × List Char)
    (h : capToQuote s = some p) : p.1 ≠ [] := by
  unfold capToQuote at h
  by_cases he : (s.takeWhile (fun c => !isQuote c)).isEmpty = true
  · simp [he] at h
  · rw [if_neg he] at h
    cases hr : s.dropWhile (fun c => !isQuote c) with
    | nil => rw [hr] at h; cases h
    | cons q r' =>
      rw [hr] at h
      have hp := Option.some.inj h
      have h1 : p.1 = s.takeWhile (fun c => !isQuote c) := by rw [← hp]
      rw [h1]
      intro hc
      exact he (by simp [hc])

/-- Match `src=["']([^"']+)["']` (case-insensitively) at the head of the
input, returning the capture and the rest after the closing quote. -/
def trySrcEq (s : List Char) : Option (List Char × List Char) :=
  (ciLit ("src=".toList) s).bind fun r1 =>
  (quoteOpen r1).bind fun r2 =>
  capToQuote r2

/-- Backtracking of the greedy `[^>]+` inside
`/<img[^>]+src=["']([^"']+)["']/gi`: the JS engine first lets `[^>]+`
consume the whole run of non-`>` characters and then gives characters
back one at a time, so the largest position at which `src=...` matches
wins.  `p` is the number of characters matched by `[^>]+`; the returned
count is the full match length including the leading `<img`. -/
def imgSearch (r : List Char) : Nat → Option (List Char × Nat)
  | 0 => none
  | Nat.succ p =>
    match trySrcEq (r.drop (Nat.succ p)) with
    | some (cap, rest) =>
      some (cap, 4 + Nat.succ p + ((r.drop (Nat.succ p)).length - rest.length))
    | none => imgSearch r p

/-- Matcher for `/<img[^>]+src=["']([^"']+)["']/gi`. -/
def tryImgSrc (_prev : Option Char) (s : List Char) : Option (List Char × Nat) :=
  match ciLit ("<img".toList) s with
  | none => none
  | some r => imgSearch r ((r.takeWhile (fun c => c ≠ '>')).length)

/-- Matcher for `/data-src=["']([^"']+)["']/gi`. -/
def tryDataSrc (_prev : Option Char) (s : List Char) : Option (List Char × Nat) :=
  (ciLit ("data-src=".toList) s).bind fun r1 =>
  (quoteOpen r1).bind fun r2 =>
  (capToQuote r2).map fun p => (p.1, s.length - p.2.length)

/-- All captures of the `src` pass of extractImages. -/
def imgSrcCaps (html : List Char) : List (List Char) := scanAll tryImgSrc html

/-- All captures of the `data-src` pass of extractImages. -/
def dataSrcCaps (html : List Char) : List (List Char) := scanAll tryDataSrc html

/-- JS `String.prototype.startsWith('http')`: a case-sensitive prefix
test. -/
def startsWithHttp (url : String) : Bool :=
  (csLit ("http".toList) url.data).isSome

/-- The source's `url.startsWith('http') ? url : new URL(url, baseUrl).toString()`.
`new URL` is a platform builtin; the embedding takes the resolver for
relative URLs as a parameter and applies it exactly where the source
does. -/
def jsResolve (resolve : String → String → String) (url base : String) : String :=
  if startsWithHttp url then url else resolve url base

/-- JS `Set.prototype.add` on an insertion-ordered list of strings. -/
def addSet (l : List String) (x : String) : List String :=
  if x ∈ l then l else l ++ [x]

/-- extractImages (src/lib/scraper-service.ts): collect `src` URLs,
skipping those containing "icon" or "logo", then collect all `data-src`
URLs, resolving relative URLs against the base URL, de-duplicating via a
Set, and return them in insertion order. -/
def extractImages (resolve : String → String → String) (html base : String) :
    List String :=
  let srcAdds :=
    ((imgSrcCaps html.data).filter
      (fun u => !u.isEmpty && !containsSub ("icon".toList) u &&
                !containsSub ("logo".toList) u)).map
      (fun u => jsResolve resolve (String.mk u) base)
  let dataAdds :=
    ((dataSrcCaps html.data).filter (fun u => !u.isEmpty)).map
      (fun u => jsResolve resolve (String.mk u) base)
  dataAdds.foldl addSet (srcAdds.foldl addSet [])

theorem mem_addSet_of_mem (l : List String) (x a : String) (h : a ∈ l) :
    a ∈ addSet l x := by
  unfold addSet
  by_cases hx : x ∈ l <;> simp [hx, h]

theorem mem_addSet_self (l : List String) (x : String) : x ∈ addSet l x := by
  unfold addSet
  by_cases hx : x ∈ l <;> simp [hx]

theorem mem_foldl_addSet_of_mem_acc :
    ∀ (l : List String) (acc : List String) (a : String),
      a ∈ acc → a ∈ l.foldl addSet acc := by
  intro l
  induction l with
  | nil => intro acc a h; exact h
  | cons x rest ih =>
    intro acc a h
    rw [List.foldl_cons]
    exact ih _ a (mem_addSet_of_mem acc x a h)

theorem mem_foldl_addSet_of_mem :
    ∀ (l : List String) (acc : List String) (a : String),
      a ∈ l → a ∈ l.foldl addSet acc := by
  intro l
  induction l with
  | nil => intro acc a h; cases h
  | cons x rest ih =>
    intro acc a h
    rw [List.foldl_cons]
    rcases List.mem_cons.mp h with h1 | h2
    · exact mem_foldl_addSet_of_mem_acc rest _ a (h1 ▸ mem_addSet_self acc x)
    · exact ih _ a h2

theorem dataSrcCaps_ne_nil (html : List Char) :
    ∀ u ∈ dataSrcCaps html, u ≠ [] := by
  apply scanAll_post
  intro prev s a k h
  simp only [tryDataSrc, Option.bind_eq_some, Option.map_eq_some'] at h
  obtain ⟨r1, _, r2, _, p, hp, hap⟩ := h
  have hne := capToQuote_ne_nil r2 p hp
  injection hap with ha hk
  exact ha ▸ hne

/-- C8: extractImages excludes URLs containing "icon" or "logo" only in
the src-attribute pass: every URL captured by the data-src pass is
included in the result (after resolution) even when it contains "icon"
or "logo".  The second conjunct exhibits the asymmetry concretely: a
src URL containing "logo" and a data-src URL containing "icon" leave
only the data-src URL in the result (the src pass also picks up the
data-src attribute via its greedy `[^>]+`, and filters it there too). -/
theorem C8_data_src_not_filtered :
    (∀ (resolve : String → String → String) (html base : String) (u : List Char),
       u ∈ dataSrcCaps html.data →
       jsResolve resolve (String.mk u) base ∈ extractImages resolve html base) ∧
    extractImages (fun rel _ => rel)
      "<img src='http://a/logo1.png'><img data-src='http://b/icon2.png'>"
      "http://e.com" = ["http://b/icon2.png"] := by
  constructor
  · intro resolve html base u hu
    unfold extractImages
    apply mem_foldl_addSet_of_mem
    apply List.mem_map.mpr
    refine ⟨u, ?_, rfl⟩
    apply List.mem_filter.mpr
    refine ⟨hu, ?_⟩
    simp [List.isEmpty_iff, dataSrcCaps_ne_nil html.data u hu]
  · decide

/-- C8 witness: a data-src URL containing "icon" is included. -/
theorem C8_witness :
    jsResolve (fun rel _ => rel) (String.mk ("http://b/icon2.png".data))
      "http://e.com" ∈
      extractImages (fun rel _ => rel) "<img data-src='http://b/icon2.png'>"
        "http://e.com" :=
  C8_data_src_not_filtered.1 (fun rel _ => rel)
    "<img data-src='http://b/icon2.png'>" "http://e.com"
    ("http://b/icon2.png".data) (by decide)

/- ### Price extractor (src/lib/scraper-service.ts, extractPrice) -/

/-- One of `$`, `£`, `€`: the regex class `[\$£€]`. -/
def isCurrencyCh (c : Char) : Bool := c = '$' || c = '£' || c = '€'

/-- Match the regex fragment `([0-9,]+\.?[0-9]*)` at the head: a greedy
run of digits and commas (at least one character), an optional dot and a
greedy run of digits.  Returns the capture and the rest.  The fragment is
last or followed only by pieces its classes are disjoint from, so the
maximal munch is exactly the JS engine's behaviour. -/
def numToken (s : List Char) : Option (List Char × List Char) :=
  let d1 := s.takeWhile (fun c => isDigitCh c || c = ',')
  let r1 := s.dropWhile (fun c => isDigitCh c || c = ',')
  if d1.isEmpty then none
  else
    match r1 with
    | '.' :: r2 =>
      let d2 := r2.takeWhile isDigitCh
      let r3 := r2.dropWhile isDigitCh
      some (d1 ++ '.' :: d2, r3)
    | _ => some (d1, r1)

/-- Matcher for pattern 1, `/[\$£€]\s*([0-9,]+\.?[0-9]*)/`. -/
def tryPrice1 (_prev : Option Char) (s : List Char) : Option (List Char × Nat) :=
  match s with
  | [] => none
  | c :: r =>
    if isCurrencyCh c then
      (numToken (r.dropWhile isJsWs)).map fun p => (p.1, s.length - p.2.length)
    else none

/-- Matcher for pattern 2, `/([0-9,]+\.?[0-9]*)\s*[\$£€]/`. -/
def tryPrice2 (_prev : Option Char) (s : List Char) : Option (List Char × Nat) :=
  (numToken s).bind fun p =>
  match p.2.dropWhile isJsWs with
  | c :: r => if isCurrencyCh c then some (p.1, s.length - r.length) else none
  | [] => none

/-- Matcher for pattern 3, `/"price"\s*:\s*"?([0-9,]+\.?[0-9]*)"?/i`.  The
optional quote before the capture is greedy: when a quote is present the
digits must follow it, otherwise the engine backtracks and requires the
digits directly (which then fail on the quote), exactly as modelled by
the two branches. -/
def tryPrice3 (_prev : Option Char) (s : List Char) : Option (List Char × Nat) :=
  (ciLit ("\"price\"".toList) s).bind fun r1 =>
  let r2 := r1.dropWhile isJsWs
  match r2 with
  | ':' :: r3 =>
    let r4 := r3.dropWhile isJsWs
    let r5 := match r4 with
      | '"' :: r => match numToken r with
        | some p => some p
        | none => numToken r4
      | _ => numToken r4
    r5.bind fun p =>
      let r6 := match p.2 with
        | '"' :: r => r
        | _ => p.2
      some (p.1, s.length - r6.length)
  | _ => none

/-- Matcher for pattern 4, `/data-price=["']([0-9,]+\.?[0-9]*)/i`. -/
def tryPrice4 (_prev : Option Char) (s : List Char) : Option (List Char × Nat) :=
  (ciLit ("data-price=".toList) s).bind fun r1 =>
  (quoteOpen r1).bind fun r2 =>
  (numToken r2).map fun p => (p.1, s.length - p.2.length)

/-- JS `parseFloat` restricted to the strings producible by the price
captures after comma removal: digits with an optional dot.  An empty or
dot-only string is NaN, modelled as `none`. -/
def parseDigitsDot (s : List Char) : Option ℚ :=
  let d1 := s.takeWhile isDigitCh
  let r1 := s.dropWhile isDigitCh
  let d2 := match r1 with
    | '.' :: r2 => r2.takeWhile isDigitCh
    | _ => []
  if d1.isEmpty && d2.isEmpty then none
  else
    let ip : ℕ := d1.foldl (fun acc c => 10 * acc + (c.toNat - '0'.toNat)) 0
    let fp : ℕ := d2.foldl (fun acc c => 10 * acc + (c.toNat - '0'.toNat)) 0
    some (mkRat ((ip * 10 ^ d2.length + fp : ℕ) : ℤ) (10 ^ d2.length))

/-- The candidate number produced by one price pattern: its first match's
capture with commas removed, run through `parseFloat`; `none` both when
the pattern does not match and when the parse is NaN, in which case the
source falls through to the next pattern. -/
def priceCand (tryM : Option Char → List Char → Option (List Char × Nat))
    (html : List Char) : Option ℚ :=
  (firstCap tryM html).bind fun cap => parseDigitsDot (cap.filter (fun c => c ≠ ','))

/-- Currency detection of extractPrice: GBP when the document contains
`£` anywhere, else EUR when it contains `€`, else USD. -/
def currencyOf (html : List Char) : String :=
  if containsSub ['£'] html then "GBP"
  else if containsSub ['€'] html then "EUR"
  else "USD"

/-- extractPrice (src/lib/scraper-service.ts): try the four price
patterns in order, returning the first parseable number together with
the detected currency; an empty result when no pattern yields a number. -/
def extractPrice (html : String) : Option (ℚ × String) :=
  match priceCand tryPrice1 html.data with
  | some p => some (p, currencyOf html.data)
  | none =>
    match priceCand tryPrice2 html.data with
    | some p => some (p, currencyOf html.data)
    | none =>
      match priceCand tryPrice3 html.data with
      | some p => some (p, currencyOf html.data)
      | none =>
        match priceCand tryPrice4 html.data with
        | some p => some (p, currencyOf html.data)
        | none => none

/-- C7: extractPrice tries the four patterns in fixed priority order
(symbol-prefixed, symbol-suffixed, JSON-style "price" field, data-price
attribute) and returns the first parseable number; the currency is GBP
when the document contains £, else EUR when it contains €, else USD.
Conjunct 1: any returned currency is the document-wide detection.
Conjunct 2: when the first three patterns yield no parseable number and
the data-price pattern yields one, with no currency symbols present, the
result is that number with "USD".  Conjunct 3: a parseable match of
pattern 1 always wins.  Conjunct 4: the claim's concrete example, a page
whose only price indicator is `data-price="49.99"`. -/
theorem C7_price_order_currency :
    (∀ (html : String) (p : ℚ) (c : String),
       extractPrice html = some (p, c) → c = currencyOf html.data) ∧
    (∀ (html : String) (p : ℚ),
       priceCand tryPrice1 html.data = none →
       priceCand tryPrice2 html.data = none →
       priceCand tryPrice3 html.data = none →
       priceCand tryPrice4 html.data = some p →
       containsSub ['£'] html.data = false →
       containsSub ['€'] html.data = false →
       extractPrice html = some (p, "USD")) ∧
    (∀ (html : String) (p : ℚ),
       priceCand tryPrice1 html.data = some p →
       extractPrice html = some (p, currencyOf html.data)) ∧
    extractPrice "<div data-price=\"49.99\"></div>" = some (4999 / 100, "USD") := by
  refine ⟨?_, ?_, ?_, ?_⟩
  · intro html p c h
    unfold extractPrice at h
    cases h1 : priceCand tryPrice1 html.data with
    | some q => rw [h1] at h; exact (Prod.mk.injEq _ _ _ _ ▸ Option.some.inj h).2.symm
    | none =>
      rw [h1] at h
      cases h2 : priceCand tryPrice2 html.data with
      | some q => rw [h2] at h; exact (Prod.mk.injEq _ _ _ _ ▸ Option.some.inj h).2.symm
      | none =>
        rw [h2] at h
        cases h3 : priceCand tryPrice3 html.data with
        | some q => rw [h3] at h; exact (Prod.mk.injEq _ _ _ _ ▸ Option.some.inj h).2.symm
        | none =>
          rw [h3] at h
          cases h4 : priceCand tryPrice4 html.data with
          | some q => rw [h4] at h; exact (Prod.mk.injEq _ _ _ _ ▸ Option.some.inj h).2.symm
          | none => rw [h4] at h; cases h
  · intro html p h1 h2 h3 h4 hp he
    unfold extractPrice
    rw [h1, h2, h3, h4]
    unfold currencyOf
    rw [hp, he]
    simp
  · intro html p h1
    unfold extractPrice
    rw [h1]
  · have h : extractPrice "<div data-price=\"49.99\"></div>" =
        some (mkRat 4999 100, "USD") := by decide
    rw [h, Rat.mkRat_eq_div]
    norm_num

/-- C7 witness: the general data-price clause applied to the concrete
page with no other price indicators and no currency symbols. -/
theorem C7_witness :
    extractPrice "<span data-price='15'></span>" = some (15, "USD") := by
  have h := C7_price_order_currency.2.1 "<span data-price='15'></span>" 15
    (by decide) (by decide) (by decide) ?_ (by decide) (by decide)
  · exact h
  · have : priceCand tryPrice4 ("<span data-price='15'></span>".data) =
        some (mkRat 15 1) := by decide
    rw [this]
    norm_num [Rat.mkRat_eq_div]

/- ### Size-chart table parser (src/lib/scraper-service.ts, scrapeSizeChart) -/

/-- Find the first (case-insensitive) occurrence of a literal in the
input, splitting the input into the part before it and the part after
it: this is the lazy `([\s\S]*?)` body up to the closing tag. -/
def splitAtLitCI (lit : List Char) : Nat → List Char → Option (List Char × List Char)
  | 0, _ => none
  | Nat.succ fuel, s =>
    match ciLit lit s with
    | some rest => some ([], rest)
    | none =>
      match s with
      | [] => none
      | c :: cs =>
        match splitAtLitCI lit fuel cs with
        | some (body, rest) => some (c :: body, rest)
        | none => none

/-- Matcher for an element regex of shape `<tag[^>]*>([\s\S]*?)</tag>`
with the `gi` flags (the table and row regexes of the source): the open
literal, a greedy run of non-'>' characters, '>', then the lazy body up
to the first closing literal. -/
def tryElem (openLit closeLit : List Char) (_prev : Option Char)
    (s : List Char) : Option (List Char × Nat) :=
  (ciLit openLit s).bind fun r1 =>
  match r1.dropWhile (fun c => c ≠ '>') with
  | '>' :: r3 =>
    (splitAtLitCI closeLit (r3.length + 1) r3).map fun p =>
      (p.1, s.length - p.2.length)
  | _ => none

/-- Matcher for a cell regex of shape `<tag[^>]*>([^<]+)</tag>` with the
`gi` flags (the th and td regexes of the source): the open literal,
attributes, '>', a nonempty run of non-'<' characters, then the closing
literal immediately. -/
def tryCell (openLit closeLit : List Char) (_prev : Option Char)
    (s : List Char) : Option (List Char × Nat) :=
  (ciLit openLit s).bind fun r1 =>
  match r1.dropWhile (fun c => c ≠ '>') with
  | '>' :: r3 =>
    let cap := r3.takeWhile (fun c => c ≠ '<')
    let r4 := r3.dropWhile (fun c => c ≠ '<')
    if cap.isEmpty then none
    else (ciLit closeLit r4).map fun r5 => (cap, s.length - r5.length)
  | _ => none

/-- The bodies captured by `/<table[^>]*>([\s\S]*?)<\/table>/gi`. -/
def tableBodies (html : List Char) : List (List Char) :=
  scanAll (tryElem ("<table".toList) ("</table>".toList)) html

/-- The bodies captured by `/<tr[^>]*>([\s\S]*?)<\/tr>/gi`. -/
def trCaps (t : List Char) : List (List Char) :=
  scanAll (tryElem ("<tr".toList) ("</tr>".toList)) t

/-- The texts captured by `/<th[^>]*>([^<]+)<\/th>/gi`. -/
def thCaps (t : List Char) : List (List Char) :=
  scanAll (tryCell ("<th".toList) ("</th>".toList)) t

/-- The texts captured by `/<td[^>]*>([^<]+)<\/td>/gi`. -/
def tdCaps (r : List Char) : List (List Char) :=
  scanAll (tryCell ("<td".toList) ("</td>".toList)) r

/-- JS `String.prototype.trim`. -/
def jsTrim (s : List Char) : List Char :=
  ((s.dropWhile isJsWs).reverse.dropWhile isJsWs).reverse

/-- JS `String.prototype.toLowerCase` on the ASCII range. -/
def jsToLower (s : List Char) : List Char := s.map Char.toLower

/-- The keyword filter `/size|chest|waist|length/i.test(tableHtml)`. -/
def sizeKeywordTest (t : List Char) : Bool :=
  containsSubCI ("size".toList) t || containsSubCI ("chest".toList) t ||
  containsSubCI ("waist".toList) t || containsSubCI ("length".toList) t

/-- The size-label filter `/^(XXS|XS|S|M|L|XL|XXL|XXXL|\d+)$/i.test(size)`:
the whole string is a canonical letter size (case-insensitively) or a
nonempty digit string. -/
def sizeLabelOk (s : List Char) : Bool :=
  (["xxs", "xs", "s", "m", "l", "xl", "xxl", "xxxl"].any
    (fun w => jsToLower s = w.toList)) ||
  (!s.isEmpty && s.all isDigitCh)

/-- Digit-string value. -/
def digitsToNat (l : List Char) : ℕ :=
  l.foldl (fun acc c => 10 * acc + (c.toNat - '0'.toNat)) 0

/-- JS `parseFloat`: skip leading whitespace, take an optional sign, then
the longest prefix forming a decimal literal (digits with an optional
fraction, or a bare fraction, with an optional exponent); trailing
characters are ignored.  NaN is modelled as `none`; under the
exact-rational abstraction the literal `Infinity`, which has no rational
value, also maps to `none`. -/
def jsParseFloat (s : List Char) : Option ℚ :=
  let s1 := s.dropWhile isJsWs
  let sgn : ℤ := match s1 with
    | '-' :: _ => -1
    | _ => 1
  let s2 : List Char := match s1 with
    | '-' :: r => r
    | '+' :: r => r
    | _ => s1
  let d1 := s2.takeWhile isDigitCh
  let r1 := s2.dropWhile isDigitCh
  let d2 : List Char := match r1 with
    | '.' :: rr => rr.takeWhile isDigitCh
    | _ => []
  let r2 : List Char := match r1 with
    | '.' :: rr => rr.dropWhile isDigitCh
    | _ => r1
  if d1.isEmpty && d2.isEmpty then none
  else
    let eVal : ℤ := match r2 with
      | e :: rr =>
        if e = 'e' || e = 'E' then
          let esgn : ℤ := match rr with
            | '-' :: _ => -1
            | _ => 1
          let rr2 : List Char := match rr with
            | '-' :: r3 => r3
            | '+' :: r3 => r3
            | _ => rr
          let ed := rr2.takeWhile isDigitCh
          if ed.isEmpty then 0 else esgn * (digitsToNat ed : ℤ)
        else 0
      | [] => 0
    let mant : ℤ := sgn * ((digitsToNat d1 * 10 ^ d2.length + digitsToNat d2 : ℕ) : ℤ)
    if 0 ≤ eVal then some (mkRat (mant * 10 ^ eVal.toNat) (10 ^ d2.length))
    else some (mkRat mant (10 ^ d2.length * 10 ^ (-eVal).toNat))

/-- One `<tr>` body of the row loop of scrapeSizeChart: trim the td
texts, accept the first cell as a size label only if it passes the label
filter, then zip the remaining cells with the headers from index 1 up to
`min(cells.length, headers.length)`, storing each parseable measurement
under the lower-cased header name. -/
def rowStep (headers : List (List Char))
    (chart : List (String × List (String × ℚ))) (row : List Char) :
    List (String × List (String × ℚ)) :=
  let cells := (tdCaps row).map jsTrim
  match cells with
  | [] => chart
  | size :: restCells =>
    if sizeLabelOk size then
      let inner := (restCells.zip (headers.drop 1)).foldl
        (fun m p =>
          match jsParseFloat p.1 with
          | some q => setKey m (String.mk (jsToLower p.2)) q
          | none => m) []
      setKey chart (String.mk size) inner
    else chart

/-- Process one qualifying `<table>` body: extract the trimmed `<th>`
headers, then fold the row step over all `<tr>` bodies. -/
def processTable (chart : List (String × List (String × ℚ)))
    (t : List Char) : List (String × List (String × ℚ)) :=
  (trCaps t).foldl (rowStep ((thCaps t).map jsTrim)) chart

/-- The table loop of scrapeSizeChart: skip tables failing the keyword
test; after processing a table, stop as soon as the accumulated chart
has at least one key. -/
def sizeChartLoop (chart : List (String × List (String × ℚ))) :
    List (List Char) → List (String × List (String × ℚ))
  | [] => chart
  | t :: rest =>
    if sizeKeywordTest t then
      let chart' := processTable chart t
      if chart'.isEmpty then sizeChartLoop chart' rest else chart'
    else sizeChartLoop chart rest

/-- The pure part of scrapeSizeChart on fetched HTML. -/
def scrapeSizeChartHtml (html : String) : List (String × List (String × ℚ)) :=
  sizeChartLoop [] (tableBodies html.data)

/-- scrapeSizeChart (src/lib/scraper-service.ts): fetch the size-guide
page and parse it; the enclosing try/catch converts any failure into the
empty chart.  The fetch outcome is passed in explicitly. -/
def scrapeSizeChartRun (fetched : Except String String) :
    List (String × List (String × ℚ)) :=
  match fetched with
  | Except.error _ => []
  | Except.ok html => scrapeSizeChartHtml html

/-- Two-table size-guide page in which only the second table's text
contains the word "chest"; the first table is a size table keyed by the
word "waist". -/
def c4Html : String :=
  "<table><tr><th>Size</th><th>Waist</th></tr><tr><td>S</td><td>30</td></tr></table><table><tr><th>Size</th><th>Chest</th></tr><tr><td>M</td><td>40</td></tr></table>"

/-- C4 counterexample: the HTML has exactly two tables and only the
second contains "chest", yet the returned chart is built from the first
table (its only key is "S" with a waist measurement, while the second
table could only have produced "M"), because the keyword filter also
accepts "size"/"waist"/"length" and scanning stops at the first table
that yields an entry. -/
theorem C4_counterexample :
    (tableBodies c4Html.data).length = 2 ∧
    containsSubCI ("chest".toList) ((tableBodies c4Html.data).headD []) = false ∧
    containsSubCI ("chest".toList) ((tableBodies c4Html.data).getLastD []) = true ∧
    scrapeSizeChartHtml c4Html = [("S", [("waist", mkRat 30 1)])] ∧
    lookupJS (processTable [] ((tableBodies c4Html.data).getLastD [])) "S" = none := by
  refine ⟨by decide, by decide, by decide, by decide, by decide⟩

/-- C4 (amended): when a page has exactly two tables and the first
contains none of the keywords size/chest/waist/length while the second
contains one (e.g. "chest"), the chart is built solely from the second
table.  In general the parser scans tables in document order and stops
as soon as a table passing the keyword filter has yielded at least one
size entry. -/
theorem C4_second_table_when_first_unqualified :
    (∀ (html : String) (t1 t2 : List Char),
       tableBodies html.data = [t1, t2] →
       sizeKeywordTest t1 = false →
       sizeKeywordTest t2 = true →
       scrapeSizeChartHtml html = processTable [] t2) ∧
    (∀ (chart : List (String × List (String × ℚ))) (t : List Char)
       (rest : List (List Char)),
       sizeKeywordTest t = true →
       (processTable chart t).isEmpty = false →
       sizeChartLoop chart (t :: rest) = processTable chart t) := by
  constructor
  · intro html t1 t2 htb h1 h2
    unfold scrapeSizeChartHtml
    rw [htb]
    by_cases hc : (processTable [] t2).isEmpty <;>
      simp [sizeChartLoop, h1, h2, hc]
  · intro chart t rest ht hne
    simp [sizeChartLoop, ht, hne]

/-- C4 witness: a first table with no sizing keyword at all and a second
table with "chest": the chart equals the second table's parse. -/
theorem C4_witness :
    scrapeSizeChartHtml
      "<table><tr><td>A</td><td>1</td></tr></table><table><tr><th>Size</th><th>Chest</th></tr><tr><td>M</td><td>40</td></tr></table>" =
      processTable []
        ("<tr><th>Size</th><th>Chest</th></tr><tr><td>M</td><td>40</td></tr>".data) :=
  C4_second_table_when_first_unqualified.1
    "<table><tr><td>A</td><td>1</td></tr></table><table><tr><th>Size</th><th>Chest</th></tr><tr><td>M</td><td>40</td></tr></table>"
    ("<tr><td>A</td><td>1</td></tr>".data)
    ("<tr><th>Size</th><th>Chest</th></tr><tr><td>M</td><td>40</td></tr>".data)
    (by decide) (by decide) (by decide)

/- ### Structured-data extractor (src/lib/scraper-service.ts, extractJsonLd) -/

/-- Matcher for
`/<script\s+type=["']application\/ld\+json["']>([^<]+)<\/script>/gi`:
open literal, required whitespace, `type=`, a quote, the MIME literal, a
quote, `>`, then a nonempty run of non-`<` characters followed
immediately by the closing tag. -/
def tryJsonLd (_prev : Option Char) (s : List Char) : Option (List Char × Nat) :=
  (ciLit ("<script".toList) s).bind fun r1 =>
  (wsRun r1).bind fun r2 =>
  (ciLit ("type=".toList) r2).bind fun r3 =>
  (quoteOpen r3).bind fun r4 =>
  (ciLit ("application/ld+json".toList) r4).bind fun r5 =>
  (quoteOpen r5).bind fun r6 =>
  match r6 with
  | '>' :: r7 =>
    let cap := r7.takeWhile (fun c => c ≠ '<')
    let r8 := r7.dropWhile (fun c => c ≠ '<')
    if cap.isEmpty then none
    else (ciLit ("</script>".toList) r8).map fun r9 => (cap, s.length - r9.length)
  | _ => none

/-- The raw texts captured by the JSON-LD regex, in document order. -/
def jsonLdCaptures (html : List Char) : List (List Char) := scanAll tryJsonLd html

/-- JavaScript runtime values, as far as the scraping code observes
them.  `undef` is JS `undefined`; `nan` is the number NaN, kept as its
own constructor because the exact-rational abstraction cannot represent
it (its truthiness is false). -/
inductive JSVal where
  | undef
  | jnull
  | bool (b : Bool)
  | num (q : ℚ)
  | nan
  | str (s : String)
  | arr (xs : List JSVal)
  | obj (fields : List (String × JSVal))

/-- JS truthiness. -/
def jsTruthy : JSVal → Bool
  | JSVal.undef => false
  | JSVal.jnull => false
  | JSVal.bool b => b
  | JSVal.num q => decide (q ≠ 0)
  | JSVal.nan => false
  | JSVal.str s => decide (s ≠ "")
  | JSVal.arr _ => true
  | JSVal.obj _ => true

/-- JS `a || b`. -/
def jsOr (a b : JSVal) : JSVal := if jsTruthy a then a else b

/-- Property read `x.f`.  On null and undefined JS would throw a
TypeError; the embedding totalises the access to `undefined`, which
coincides with the optional chaining `?.` the source uses where the base
can be absent. -/
def getField : JSVal → String → JSVal
  | JSVal.obj fields, k =>
    (match lookupJS fields k with
     | some v => v
     | none => JSVal.undef)
  | _, _ => JSVal.undef

/-- JSON whitespace accepted by `JSON.parse`. -/
def isJsonWs (c : Char) : Bool := c = ' ' || c = '\t' || c = '\n' || c = '\r'

/-- Hexadecimal digit value (either letter case). -/
def hexVal (c : Char) : Option ℕ :=
  if isDigitCh c then some (c.toNat - '0'.toNat)
  else
    let l := c.toLower
    if 'a' ≤ l && l ≤ 'f' then some (l.toNat - 'a'.toNat + 10) else none

/-- Parse the remainder of a JSON string after its opening quote,
returning the decoded content and the rest after the closing quote.
Raw control characters are rejected, as `JSON.parse` does.  `\uXXXX`
escapes go through `Char.ofNat`; JS keeps lone surrogate halves as
UTF-16 units, which Lean `Char` cannot represent — they do not occur in
the inputs considered here. -/
def jsonStringRest : Nat → List Char → Option (List Char × List Char)
  | 0, _ => none
  | _, [] => none
  | Nat.succ fuel, c :: cs =>
    if c = '"' then some ([], cs)
    else if c = '\\' then
      match cs with
      | [] => none
      | e :: cs2 =>
        let dec : Option (Char × List Char) :=
          if e = '"' then some ('"', cs2)
          else if e = '\\' then some ('\\', cs2)
          else if e = '/' then some ('/', cs2)
          else if e = 'b' then some ('\x08', cs2)
          else if e = 'f' then some ('\x0c', cs2)
          else if e = 'n' then some ('\n', cs2)
          else if e = 'r' then some ('\r', cs2)
          else if e = 't' then some ('\t', cs2)
          else if e = 'u' then
            match cs2 with
            | h1 :: h2 :: h3 :: h4 :: cs3 =>
              (match hexVal h1, hexVal h2, hexVal h3, hexVal h4 with
               | some a, some b, some c2, some d =>
                 some (Char.ofNat (((a * 16 + b) * 16 + c2) * 16 + d), cs3)
               | _, _, _, _ => none)
            | _ => none
          else none
        match dec with
        | some (ch, rest) =>
          (match jsonStringRest fuel rest with
           | some (content, r2) => some (ch :: content, r2)
           | none => none)
        | none => none
    else if c.toNat < 0x20 then none
    else
      match jsonStringRest fuel cs with
      | some (content, r2) => some (c :: content, r2)
      | none => none

/-- Parse a JSON number token at the head of the input: optional minus,
an integer part with no superfluous leading zero, an optional fraction
(which must have digits) and an optional exponent (which must have
digits), exactly the JSON grammar enforced by `JSON.parse`. -/
def jsonNumber (s : List Char) : Option (ℚ × List Char) :=
  let sgn : ℤ := match s with
    | '-' :: _ => -1
    | _ => 1
  let s1 : List Char := match s with
    | '-' :: r => r
    | _ => s
  let intPart : Option (List Char × List Char) :=
    match s1 with
    | '0' :: r => some (['0'], r)
    | c :: r =>
      if isDigitCh c then some (c :: r.takeWhile isDigitCh, r.dropWhile isDigitCh)
      else none
    | [] => none
  match intPart with
  | none => none
  | some (d1, r1) =>
    let fracPart : Option (List Char × List Char) :=
      match r1 with
      | '.' :: rr =>
        (if (rr.takeWhile isDigitCh).isEmpty then none
         else some (rr.takeWhile isDigitCh, rr.dropWhile isDigitCh))
      | _ => some ([], r1)
    match fracPart with
    | none => none
    | some (d2, r2) =>
      let expPart : Option (ℤ × List Char) :=
        match r2 with
        | e :: rr =>
          if e = 'e' || e = 'E' then
            let esgn : ℤ := match rr with
              | '-' :: _ => -1
              | _ => 1
            let rr2 : List Char := match rr with
              | '-' :: r3 => r3
              | '+' :: r3 => r3
              | _ => rr
            (if (rr2.takeWhile isDigitCh).isEmpty then none
             else some (esgn * (digitsToNat (rr2.takeWhile isDigitCh) : ℤ),
                        rr2.dropWhile isDigitCh))
          else some (0, r2)
        | [] => some (0, r2)
      match expPart with
      | none => none
      | some (eVal, r3) =>
        let mant : ℤ := sgn * ((digitsToNat d1 * 10 ^ d2.length + digitsToNat d2 : ℕ) : ℤ)
        if 0 ≤ eVal then some (mkRat (mant * 10 ^ eVal.toNat) (10 ^ d2.length), r3)
        else some (mkRat mant (10 ^ d2.length * 10 ^ (-eVal).toNat), r3)

mutual

def jsonValue : Nat → List Char → Option (JSVal × List Char)
  | 0, _ => none
  | Nat.succ fuel, s =>
    match s with
    | '{' :: cs =>
      (match cs.dropWhile isJsonWs with
       | '}' :: r2 => some (JSVal.obj [], r2)
       | r1 => jsonMembers fuel [] r1)
    | '[' :: cs =>
      (match cs.dropWhile isJsonWs with
       | ']' :: r2 => some (JSVal.arr [], r2)
       | r1 => jsonElements fuel [] r1)
    | '"' :: cs =>
      (match jsonStringRest (cs.length + 1) cs with
       | some (content, r) => some (JSVal.str (String.mk content), r)
       | none => none)
    | 't' :: cs => (csLit ("rue".toList) cs).map fun r => (JSVal.bool true, r)
    | 'f' :: cs => (csLit ("alse".toList) cs).map fun r => (JSVal.bool false, r)
    | 'n' :: cs => (csLit ("ull".toList) cs).map fun r => (JSVal.jnull, r)
    | s' => (jsonNumber s').map fun p => (JSVal.num p.1, p.2)

def jsonMembers : Nat → List (String × JSVal) → List Char → Option (JSVal × List Char)
  | 0, _, _ => none
  | Nat.succ fuel, acc, s =>
    match s with
    | '"' :: cs =>
      (match jsonStringRest (cs.length + 1) cs with
       | none => none
       | some (key, r1) =>
         match r1.dropWhile isJsonWs with
         | ':' :: r2 =>
           (match jsonValue fuel (r2.dropWhile isJsonWs) with
            | none => none
            | some (v, r3) =>
              match r3.dropWhile isJsonWs with
              | ',' :: r4 =>
                jsonMembers fuel (setKey acc (String.mk key) v) (r4.dropWhile isJsonWs)
              | '}' :: r4 => some (JSVal.obj (setKey acc (String.mk key) v), r4)
              | _ => none)
         | _ => none)
    | _ => none

def jsonElements : Nat → List JSVal → List Char → Option (JSVal × List Char)
  | 0, _, _ => none
  | Nat.succ fuel, acc, s =>
    match jsonValue fuel s with
    | none => none
    | some (v, r1) =>
      match r1.dropWhile isJsonWs with
      | ',' :: r2 => jsonElements fuel (acc ++ [v]) (r2.dropWhile isJsonWs)
      | ']' :: r2 => some (JSVal.arr (acc ++ [v]), r2)
      | _ => none

end

/-- JS `JSON.parse`: one JSON value, surrounding whitespace allowed,
trailing garbage rejected. -/
def jsParseJson (s : String) : Option JSVal :=
  match jsonValue (s.data.length + 1) (s.data.dropWhile isJsonWs) with
  | some (v, r) => if (r.dropWhile isJsonWs).isEmpty then some v else none
  | none => none

/-- extractJsonLd (src/lib/scraper-service.ts): parse each captured
block with JSON.parse, silently skipping blocks that fail to parse. -/
def extractJsonLd (html : String) : List JSVal :=
  (jsonLdCaptures html.data).filterMap (fun cap => jsParseJson (String.mk cap))

theorem not_lt_mem_takeWhile (l : List Char) :
    '<' ∉ l.takeWhile (fun c => c ≠ '<') := by
  induction l with
  | nil => simp
  | cons c cs ih =>
    by_cases h : c = '<'
    · simp [List.takeWhile, h]
    · simp only [List.takeWhile]
      have : (fun c => decide (c ≠ '<')) c = true := by simp [h]
      simp only [this]
      intro hm
      rcases List.mem_cons.mp hm with h1 | h2
      · exact h h1.symm
      · exact ih h2

theorem tryJsonLd_no_lt (prev : Option Char) (s : List Char)
    (cap : List Char) (k : Nat) (h : tryJsonLd prev s = some (cap, k)) :
    '<' ∉ cap := by
  simp only [tryJsonLd, Option.bind_eq_some] at h
  obtain ⟨r1, _, r2, _, r3, _, r4, _, r5, _, r6, _, h6⟩ := h
  split at h6
  · split at h6
    · cases h6
    · rw [Option.map_eq_some'] at h6
      obtain ⟨r9, _, h9⟩ := h6
      injection h9 with hcap hk
      rw [← hcap]
      exact not_lt_mem_takeWhile _
  · cases h6

/-- C10: every capture of the JSON-LD extraction pattern is free of the
character '<' (the regex body is `([^<]+)`), so extractJsonLd returns
only values parsed from '<'-free block bodies.  Concretely, a script
block whose body is valid JSON but contains '<' inside a string yields
nothing, while the same block with a '<'-free body is parsed and
returned. -/
theorem C10_jsonld_blocks_lt_free :
    (∀ (html : String) (cap : List Char),
       cap ∈ jsonLdCaptures html.data → '<' ∉ cap) ∧
    extractJsonLd
      "<script type=\"application/ld+json\">\x7b\"a\":\"x<y\"\x7d</script>" = [] ∧
    extractJsonLd
      "<script type=\"application/ld+json\">\x7b\"a\":1\x7d</script>" =
      [JSVal.obj [("a", JSVal.num (mkRat 1 1))]] := by
  refine ⟨?_, rfl, rfl⟩
  intro html cap hcap
  exact scanAll_post tryJsonLd (fun cap => '<' ∉ cap)
    (fun prev s a k h => tryJsonLd_no_lt prev s a k h) html.data cap hcap

/-- C10 witness: the '<'-freedom clause applied to the concrete single
block, whose sole capture is its JSON body. -/
theorem C10_witness :
    '<' ∉ ("\x7b\"a\":1\x7d".data) ∧
    ("\x7b\"a\":1\x7d".data) ∈
      jsonLdCaptures ("<script type=\"application/ld+json\">\x7b\"a\":1\x7d</script>".data) :=
  ⟨C10_jsonld_blocks_lt_free.1
      "<script type=\"application/ld+json\">\x7b\"a\":1\x7d</script>"
      ("\x7b\"a\":1\x7d".data) (by decide),
   by decide⟩

/- ### Size-token extractor (src/lib/scraper-service.ts, extractSizes) -/

/-- Word-boundary `\b` before a word character: the previous character,
when there is one, must not be a word character. -/
def boundaryBefore (prev : Option Char) : Bool :=
  match prev with
  | none => true
  | some c => !isWordChar c

/-- Word-boundary `\b` after a word character: the next character, when
there is one, must not be a word character. -/
def boundaryAfter : List Char → Bool
  | [] => true
  | c :: _ => !isWordChar c

/-- Alternation with trailing `\b`: try the alternatives in declaration
order and accept the first whose literal matches and whose trailing
boundary holds, backtracking to later alternatives otherwise. -/
def tryAlts (alts : List (List Char)) (s : List Char) : Option (List Char × Nat) :=
  match alts with
  | [] => none
  | a :: rest =>
    match csLit a s with
    | some r => if boundaryAfter r then some (a, a.length) else tryAlts rest s
    | none => tryAlts rest s

/-- Matcher for `/\b(XXS|XS|S|M|L|XL|XXL|XXXL)\b/g` (case-sensitive). -/
def tryLetterSize (prev : Option Char) (s : List Char) : Option (List Char × Nat) :=
  if boundaryBefore prev then
    tryAlts (["XXS", "XS", "S", "M", "L", "XL", "XXL", "XXXL"].map String.toList) s
  else none

/-- Matcher for `/\b(size\s*[0-9]+)\b/gi`. -/
def trySizeWord (prev : Option Char) (s : List Char) : Option (List Char × Nat) :=
  if boundaryBefore prev then
    (ciLit ("size".toList) s).bind fun r1 =>
    let ws := r1.takeWhile isJsWs
    let r2 := r1.dropWhile isJsWs
    let ds := r2.takeWhile isDigitCh
    let r3 := r2.dropWhile isDigitCh
    if ds.isEmpty then none
    else if boundaryAfter r3 then
      some (s.take (4 + ws.length + ds.length), 4 + ws.length + ds.length)
    else none
  else none

/-- Matcher for `/\b([0-9]+[A-Z])\b/g` (case-sensitive), e.g. 32W. -/
def tryNumLetter (prev : Option Char) (s : List Char) : Option (List Char × Nat) :=
  if boundaryBefore prev then
    let ds := s.takeWhile isDigitCh
    let r1 := s.dropWhile isDigitCh
    if ds.isEmpty then none
    else
      match r1 with
      | c :: r2 =>
        if ('A' ≤ c && c ≤ 'Z') && boundaryAfter r2 then
          some (ds ++ [c], ds.length + 1)
        else none
      | [] => none
  else none

/-- JS `String.prototype.toUpperCase` on the ASCII range. -/
def jsToUpper (s : List Char) : List Char := s.map Char.toUpper

/-- extractSizes (src/lib/scraper-service.ts): apply the three size
regex families to the whole HTML in order, upper-casing every capture
into a Set kept in insertion order. -/
def extractSizes (html : String) : List String :=
  let caps := scanAll tryLetterSize html.data ++ scanAll trySizeWord html.data ++
    scanAll tryNumLetter html.data
  (caps.map (fun u => String.mk (jsToUpper u))).foldl addSet []

/- ### Product aggregator (src/lib/scraper-service.ts, scrapeProductPage) -/

/-- The ProductData record assembled by scrapeProductPage.  Fields the
JSON-LD loop writes through untyped access are JS values; `sizes` and
`category` are only ever set from typed extractor output.  The
`material` and `sizeChart` fields of the interface are never written by
scrapeProductPage and are omitted. -/
structure ProductData where
  name : JSVal
  brand : JSVal
  price : JSVal
  currency : JSVal
  imageUrl : JSVal
  sizes : Option (List String)
  description : JSVal
  category : Option String

/-- `typeof x === 'string'`. -/
def isStrVal : JSVal → Bool
  | JSVal.str _ => true
  | _ => false

/-- Strict equality against the string literal 'Product'. -/
def isProductTag : JSVal → Bool
  | JSVal.str s => s = "Product"
  | _ => false

/-- The loop filter `product['@type'] === 'Product' || product.type === 'Product'`. -/
def isProductVal (p : JSVal) : Bool :=
  isProductTag (getField p "@type") || isProductTag (getField p "type")

/-- `Array.isArray(x) ? x[0] : x`; indexing an empty array gives
`undefined`. -/
def firstOrSelf : JSVal → JSVal
  | JSVal.arr [] => JSVal.undef
  | JSVal.arr (x :: _) => x
  | v => v

/-- `parseFloat` applied to a JS value, as in `parseFloat(offer.price)`:
a number passes through unchanged (its string round-trip is exact under
the rational abstraction), a string is parsed, and other values — whose
string coercions are not number-like in the inputs considered — give
NaN. -/
def jsParseFloatVal : JSVal → JSVal
  | JSVal.num q => JSVal.num q
  | JSVal.str s =>
    (match jsParseFloat s.data with
     | some q => JSVal.num q
     | none => JSVal.nan)
  | _ => JSVal.nan

/-- `typeof product.name === 'string' ? product.name : undefined`. -/
def nameContrib (p : JSVal) : JSVal :=
  if isStrVal (getField p "name") then getField p "name" else JSVal.undef

/-- `typeof product.description === 'string' ? product.description : undefined`. -/
def descContrib (p : JSVal) : JSVal :=
  if isStrVal (getField p "description") then getField p "description"
  else JSVal.undef

/-- `product.brand?.name || product.manufacturer`, assigned to the brand
field unconditionally on every Product entry. -/
def brandContrib (p : JSVal) : JSVal :=
  jsOr (getField (getField p "brand") "name") (getField p "manufacturer")

/-- The price contribution of a Product entry: present only when
`product.offers` is truthy, in which case it is
`offer.price ? parseFloat(offer.price) : undefined` for the first offer
of an array (or the offers value itself). -/
def priceContrib (p : JSVal) : Option JSVal :=
  if jsTruthy (getField p "offers") then
    some (if jsTruthy (getField (firstOrSelf (getField p "offers")) "price") then
            jsParseFloatVal (getField (firstOrSelf (getField p "offers")) "price")
          else JSVal.undef)
  else none

/-- The currency contribution `offer.priceCurrency`, present only when
`product.offers` is truthy. -/
def currencyContrib (p : JSVal) : Option JSVal :=
  if jsTruthy (getField p "offers") then
    some (getField (firstOrSelf (getField p "offers")) "priceCurrency")
  else none

/-- The image contribution `typeof img === 'string' ? img : img?.url`
for the first element of an array image (or the image itself), present
only when `product.image` is truthy. -/
def imageContrib (p : JSVal) : Option JSVal :=
  if jsTruthy (getField p "image") then
    some (if isStrVal (firstOrSelf (getField p "image")) then
            firstOrSelf (getField p "image")
          else getField (firstOrSelf (getField p "image")) "url")
  else none

/-- The body of the JSON-LD loop of scrapeProductPage for one entry that
passed the Product filter: name, description, price, currency and
imageUrl are assigned with `x = x || contribution` (price, currency and
imageUrl only inside `if (product.offers)` / `if (product.image)`),
while brand is assigned unconditionally. -/
def productStep (pd : ProductData) (p : JSVal) : ProductData :=
  { pd with
    name := jsOr pd.name (nameContrib p)
    brand := brandContrib p
    description := jsOr pd.description (descContrib p)
    price := match priceContrib p with
      | some c => jsOr pd.price c
      | none => pd.price
    currency := match currencyContrib p with
      | some c => jsOr pd.currency c
      | none => pd.currency
    imageUrl := match imageContrib p with
      | some c => jsOr pd.imageUrl c
      | none => pd.imageUrl }

/-- The JSON-LD loop of scrapeProductPage: fold the step over every
parsed entry, skipping entries that fail the Product filter. -/
def applyJsonLd (pd : ProductData) : List JSVal → ProductData
  | [] => pd
  | p :: rest => applyJsonLd (if isProductVal p then productStep pd p else pd) rest

/-- JS `hostname.split('.')`. -/
def splitOnDot : List Char → List (List Char)
  | [] => [[]]
  | c :: cs =>
    if c = '.' then [] :: splitOnDot cs
    else
      match splitOnDot cs with
      | h :: t => (c :: h) :: t
      | [] => [[c]]

/-- The brand fallback `urlParts[urlParts.length - 2]` on the
dot-separated hostname labels; `undefined` when there are fewer than two
labels. -/
def hostnameBrand (hostname : String) : JSVal :=
  match (splitOnDot hostname.data).reverse.drop 1 with
  | x :: _ => JSVal.str (String.mk x)
  | [] => JSVal.undef

/-- categoryPatterns of scrapeProductPage in declaration order, each
with the alternatives of its regex. -/
def categoryPatterns : List (String × List String) :=
  [("shirt", ["shirt", "blouse", "top"]),
   ("pants", ["pants", "trousers", "jeans", "bottoms"]),
   ("dress", ["dress", "gown"]),
   ("shoes", ["shoes", "sneakers", "boots", "footwear"]),
   ("jacket", ["jacket", "coat", "blazer", "outerwear"])]

/-- `pattern.test(url) || pattern.test(html)` for an alternation of
literals with the `i` flag. -/
def testAlts (alts : List String) (txt : List Char) : Bool :=
  alts.any (fun a => containsSubCI a.toList txt)

/-- The category loop: first pattern matching the URL or the HTML wins;
no match leaves the category undefined. -/
def categoryOf (url html : List Char) : Option String :=
  (categoryPatterns.find? (fun p => testAlts p.2 url || testAlts p.2 html)).map
    Prod.fst

/-- The pure assembly of scrapeProductPage on fetched HTML: run the
extractors over the page, build the initial record preferring meta-tag
and extractor values, run the JSON-LD loop over all parsed blocks, infer
the brand from the hostname when still falsy, and detect a category
from URL or page text.  The network fetch, the URL parser (`new URL`)
and relative-URL resolution are platform effects represented by the
hostname and resolver arguments. -/
def assembleProduct (html url hostname : String)
    (resolve : String → String → String) : ProductData :=
  let metaTags := extractMetaTags html
  let metaVal := fun k =>
    match lookupJS metaTags k with
    | some v => JSVal.str v
    | none => JSVal.undef
  let images := extractImages resolve html url
  let szs := extractSizes html
  let priceData := extractPrice html
  let pd0 : ProductData :=
    { name := jsOr (metaVal "og:title") (metaVal "twitter:title")
      brand := JSVal.undef
      price := match priceData with
        | some (p, _) => JSVal.num p
        | none => JSVal.undef
      currency := match priceData with
        | some (_, c) => JSVal.str c
        | none => JSVal.undef
      imageUrl := jsOr (metaVal "og:image")
        (match images with
         | i :: _ => JSVal.str i
         | [] => JSVal.undef)
      sizes := if szs.isEmpty then none else some szs
      description := jsOr (metaVal "og:description") (metaVal "description")
      category := none }
  let pd1 := applyJsonLd pd0 (extractJsonLd html)
  let pd2 := if jsTruthy pd1.brand then pd1
             else { pd1 with brand := hostnameBrand hostname }
  { pd2 with category := categoryOf url.data html.data }

/-- Follows the spec's words for claim C3, for comparison with the
source's behaviour: only the FIRST JSON-LD entry whose `@type` (or
`type`) is "Product" is consulted, and each of name, brand, description,
price, currency and imageUrl is backfilled from it only when the
preferred value is absent. -/
def applyJsonLdFirstOnly (pd : ProductData) (l : List JSVal) : ProductData :=
  match l.find? isProductVal with
  | none => pd
  | some p =>
    { pd with
      name := jsOr pd.name (nameContrib p)
      brand := jsOr pd.brand (brandContrib p)
      description := jsOr pd.description (descContrib p)
      price := match priceContrib p with
        | some c => jsOr pd.price c
        | none => pd.price
      currency := match currencyContrib p with
        | some c => jsOr pd.currency c
        | none => pd.currency
      imageUrl := match imageContrib p with
        | some c => jsOr pd.imageUrl c
        | none => pd.imageUrl }

/-- The assembly as described by the spec's words for claim C3: the
same pipeline with the first-matching-block, backfill-only JSON-LD
rule. -/
def assembleProductSpecFirstBlock (html url hostname : String)
    (resolve : String → String → String) : ProductData :=
  let metaTags := extractMetaTags html
  let metaVal := fun k =>
    match lookupJS metaTags k with
    | some v => JSVal.str v
    | none => JSVal.undef
  let images := extractImages resolve html url
  let szs := extractSizes html
  let priceData := extractPrice html
  let pd0 : ProductData :=
    { name := jsOr (metaVal "og:title") (metaVal "twitter:title")
      brand := JSVal.undef
      price := match priceData with
        | some (p, _) => JSVal.num p
        | none => JSVal.undef
      currency := match priceData with
        | some (_, c) => JSVal.str c
        | none => JSVal.undef
      imageUrl := jsOr (metaVal "og:image")
        (match images with
         | i :: _ => JSVal.str i
         | [] => JSVal.undef)
      sizes := if szs.isEmpty then none else some szs
      description := jsOr (metaVal "og:description") (metaVal "description")
      category := none }
  let pd1 := applyJsonLdFirstOnly pd0 (extractJsonLd html)
  let pd2 := if jsTruthy pd1.brand then pd1
             else { pd1 with brand := hostnameBrand hostname }
  { pd2 with category := categoryOf url.data html.data }

/-- First-truthy chain: `x || c1 || c2 || ...`. -/
def jsOrChain (x : JSVal) (l : List JSVal) : JSVal := l.foldl jsOr x

/-- Per-field characterisation of the source's JSON-LD loop over the
Product entries, used as the amended reading of claim C3: name and
description collect the first truthy contribution across ALL Product
blocks in order (after the preferred source); price, currency and
imageUrl do the same restricted to blocks whose offers (resp. image)
field is truthy; brand takes the LAST Product block's contribution
unconditionally. -/
def applyJsonLdFielded (pd : ProductData) (l : List JSVal) : ProductData :=
  let bs := l.filter isProductVal
  { name := jsOrChain pd.name (bs.map nameContrib)
    brand := (bs.map brandContrib).getLastD pd.brand
    price := jsOrChain pd.price (bs.filterMap priceContrib)
    currency := jsOrChain pd.currency (bs.filterMap currencyContrib)
    imageUrl := jsOrChain pd.imageUrl (bs.filterMap imageContrib)
    sizes := pd.sizes
    description := jsOrChain pd.description (bs.map descContrib)
    category := pd.category }

/-- scrapeProductPage (src/lib/scraper-service.ts): the assembled record
on a successful fetch; any error is caught and rethrown as
`Failed to scrape product page: <cause>`. -/
def scrapeProductPageRun (fetched : Except String String) (url hostname : String)
    (resolve : String → String → String) : Except String ProductData :=
  match fetched with
  | Except.error msg => Except.error ("Failed to scrape product page: " ++ msg)
  | Except.ok html => Except.ok (assembleProduct html url hostname resolve)

/-- Stepping the per-field characterisation backwards through one
Product entry. -/
theorem fielded_step (pd : ProductData) (p : JSVal) (rest : List JSVal)
    (hp : isProductVal p = true) :
    applyJsonLdFielded (productStep pd p) rest = applyJsonLdFielded pd (p :: rest) := by
  unfold applyJsonLdFielded productStep
  simp only [List.filter_cons, hp, if_true, List.map_cons, List.filterMap_cons]
  rcases hpc : priceContrib p with _ | c1 <;>
    rcases hcc : currencyContrib p with _ | c2 <;>
    rcases hic : imageContrib p with _ | c3 <;>
    simp only [jsOrChain, List.foldl_cons, List.getLastD_cons]

/-- C3 (amended): the JSON-LD loop of scrapeProductPage consults ALL
entries whose type is "Product", in document order, not only the first:
name and description are backfilled with the first truthy contribution
across the blocks (preferred source first); price and currency likewise,
but only from blocks with a truthy offers field and consulting only the
first offer of an array; imageUrl likewise from blocks with a truthy
image field, consulting only the first array element; brand, by
contrast, is overwritten unconditionally by every Product block, so the
last block wins (with the hostname fallback applied afterwards when the
result is falsy). -/
theorem C3_jsonld_consults_all_blocks (l : List JSVal) :
    ∀ pd : ProductData, applyJsonLd pd l = applyJsonLdFielded pd l := by
  induction l with
  | nil => intro pd; rfl
  | cons p rest ih =>
    intro pd
    by_cases hp : isProductVal p
    · have h1 : applyJsonLd pd (p :: rest) = applyJsonLd (productStep pd p) rest := by
        simp [applyJsonLd, hp]
      rw [h1, ih, fielded_step pd p rest hp]
    · have h1 : applyJsonLd pd (p :: rest) = applyJsonLd pd rest := by
        simp [applyJsonLd, hp]
      rw [h1, ih]
      simp [applyJsonLdFielded, List.filter_cons, hp]

/-- Two JSON-LD Product blocks; the first has no name field, the second
has name "B"; there are no meta tags. -/
def c3Html : String :=
  "<script type='application/ld+json'>\x7b\"@type\":\"Product\"\x7d</script><script type='application/ld+json'>\x7b\"@type\":\"Product\",\"name\":\"B\"\x7d</script>"

/-- C3 counterexample: on a page whose only data is two JSON-LD Product
blocks, the first without a name and the second with name "B",
scrapeProductPage's assembly returns name "B" — the second matching
block was consulted — whereas the claim's reading (only the first
matching block is consulted, backfilling only) leaves the name absent. -/
theorem C3_counterexample :
    (extractJsonLd c3Html).length = 2 ∧
    (assembleProduct c3Html "https://example.com/x" "example.com"
      (fun rel _ => rel)).name = JSVal.str "B" ∧
    (assembleProductSpecFirstBlock c3Html "https://example.com/x" "example.com"
      (fun rel _ => rel)).name = JSVal.undef :=
  ⟨rfl, rfl, rfl⟩

/-- C5: a failed fetch inside scrapeSizeChart is swallowed and yields
the empty chart, while a failed fetch inside scrapeProductPage is
rethrown as an error whose message starts with
"Failed to scrape product page: " followed by the cause. -/
theorem C5_soft_vs_hard_failure :
    (∀ e : String, scrapeSizeChartRun (Except.error e) = []) ∧
    (∀ (e url hostname : String) (resolve : String → String → String),
       ∃ tail, scrapeProductPageRun (Except.error e) url hostname resolve =
         Except.error ("Failed to scrape product page: " ++ tail)) :=
  ⟨fun _ => rfl, fun e _ _ _ => ⟨e, rfl⟩⟩
